import Mathlib

/-!
Verification of the scan-and-transfer pass of `s3_explorer.py`.

The script pages through an S3 listing, classifies each entry (directory
marker / ignored-by-extension / counted), folds per-folder and global
counters, optionally downloads the counted entries, and prints a report.
Python-specific semantics embedded here:
- `pathlib.Path(key).parent`, `.name`, `.suffix` on POSIX paths (segments
  split on `/`, empty and `.` segments dropped; `suffix` is nonempty only
  when the last `.` of the final segment is neither its first nor its last
  character);
- `sorted` over `Path` objects, which (pathlib up to Python 3.11) compares
  the tuples of path segments lexicographically, not the joined strings;
- truthiness tests on optional strings and lists (`if extensions:`,
  `if args.download and args.dest:`), where `None`, `""` and `[]` are falsy.
Characters are lowered ASCII-style, matching `str.lower` on the ASCII
extension strings the script deals with.
-/

namespace S3X

/-- One remote object from a listing page: `obj["Key"]` and `obj["Size"]`. -/
structure Entry where
  key : String
  size : Nat
deriving Repr, DecidableEq

/-- Per-folder accumulator: the `{"files": 0, "bytes": 0, "ignored": 0}`
default value of the `stats` defaultdict.  Also reused for the three global
totals `total_files` / `total_bytes` / `total_ignored`. -/
structure FolderStats where
  files : Nat
  bytes : Nat
  ignored : Nat
deriving Repr, DecidableEq

def FolderStats.zero : FolderStats := ⟨0, 0, 0⟩

/-- The `stats` defaultdict, as an association list keyed by the folder
string (insertion order preserved, like a Python dict). -/
abbrev Stats := List (String × FolderStats)

/-- Dict read with the defaultdict zero default. -/
def Stats.get (s : Stats) (k : String) : FolderStats :=
  match s.lookup k with
  | some v => v
  | none => FolderStats.zero

/-- `stats[k] = f (stats[k])`: update in place, or append a freshly
defaulted entry, as a defaultdict access does. -/
def Stats.update (s : Stats) (k : String) (f : FolderStats → FolderStats) : Stats :=
  match s with
  | [] => [(k, f FolderStats.zero)]
  | (k', v) :: rest =>
      if k' = k then (k', f v) :: rest else (k', v) :: Stats.update rest k f

/-! ### pathlib embedding (POSIX, relative-or-absolute keys) -/

/-- Split a character list on `/` (keeping empty chunks). -/
def splitOnSlash : List Char → List (List Char)
  | [] => [[]]
  | c :: cs =>
      if c = '/' then [] :: splitOnSlash cs
      else
        match splitOnSlash cs with
        | [] => [[c]]
        | s :: ss => (c :: s) :: ss

/-- The `parts` of a path (drive/root aside): empty and `.` chunks dropped,
as pathlib's parser does. -/
def pathPartsL (cs : List Char) : List (List Char) :=
  (splitOnSlash cs).filter (fun s => !s.isEmpty && s ≠ ['.'])

/-- Join segments with `/`. -/
def joinSlash : List (List Char) → List Char
  | [] => []
  | [s] => s
  | s :: rest => s ++ '/' :: joinSlash rest

/-- `str(Path(key).parent)`: drop the last segment; `.` for a bare name,
root kept for absolute keys. -/
def parentPath (key : String) : String :=
  let ps := (pathPartsL key.data).dropLast
  if key.data.head? = some '/' then String.mk ('/' :: joinSlash ps)
  else
    match ps with
    | [] => "."
    | _ => String.mk (joinSlash ps)

/-- `key.endswith("/")`. -/
def endsWithSlash (key : String) : Bool :=
  key.data.getLast? = some '/'

/-- Index of the last occurrence of `c`, i.e. `rfind`. -/
def lastIdxOf (c : Char) : List Char → Option Nat
  | [] => none
  | a :: rest =>
      match lastIdxOf c rest with
      | some i => some (i + 1)
      | none => if a = c then some 0 else none

/-- `Path(key).name`: the final segment (or empty). -/
def pathNameL (cs : List Char) : List Char :=
  ((pathPartsL cs).getLast?).getD []

/-- `Path(key).suffix`: from the last `.` of the name onward, provided that
dot is neither the name's first nor last character; else empty. -/
def pathSuffix (key : String) : String :=
  let name := pathNameL key.data
  match lastIdxOf '.' name with
  | none => ""
  | some i => if 0 < i && i + 1 < name.length then String.mk (name.drop i) else ""

/-- `s.lower()` (ASCII). -/
def lowerStr (s : String) : String :=
  String.mk (s.data.map Char.toLower)

/-- `str(DEST_ROOT / key)`: pathlib join, a later absolute path winning. -/
def pathJoin (root key : String) : String :=
  if key.data.head? = some '/' then
    String.mk ('/' :: joinSlash (pathPartsL key.data))
  else if root.data.head? = some '/' then
    String.mk ('/' :: joinSlash (pathPartsL root.data ++ pathPartsL key.data))
  else
    match pathPartsL root.data ++ pathPartsL key.data with
    | [] => "."
    | ps => String.mk (joinSlash ps)

/-! ### Extension normalization and the filter test -/

/-- `ext.lower() if ext.startswith(".") else f".{ext.lower()}"`. -/
def normalizeExt (e : String) : String :=
  if e.data.head? = some '.' then lowerStr e
  else String.mk ('.' :: (lowerStr e).data)

/-- `extensions = None` unless `args.extensions` is a nonempty list
(`if args.extensions:` — both `None` and `[]` are falsy). -/
def normalizeExtensions (argExts : Option (List String)) : Option (List String) :=
  match argExts with
  | none => none
  | some l => if l.isEmpty then none else some (l.map normalizeExt)

/-- The ignore test of both loops: `if extensions:` and then
`if Path(key).suffix.lower() not in extensions`. -/
def entryIgnored (extensions : Option (List String)) (key : String) : Bool :=
  match extensions with
  | none => false
  | some exts => !exts.isEmpty && !exts.contains (lowerStr (pathSuffix key))

/-- An entry both loops count: not a directory marker and not ignored. -/
def counted (extensions : Option (List String)) (e : Entry) : Bool :=
  !endsWithSlash e.key && !entryIgnored extensions e.key

/-! ### Scan pass -/

/-- `stats` plus the three totals. -/
structure ScanState where
  stats : Stats
  totals : FolderStats
deriving Repr, DecidableEq

def ScanState.init : ScanState := ⟨[], FolderStats.zero⟩

/-- One iteration of the scan loop body (lines 59–83 of the script). -/
def scanStep (extensions : Option (List String)) (s : ScanState) (e : Entry) : ScanState :=
  let folder := parentPath e.key
  if endsWithSlash e.key then s
  else if entryIgnored extensions e.key then
    { stats := Stats.update s.stats folder (fun fs => { fs with ignored := fs.ignored + 1 }),
      totals := { s.totals with ignored := s.totals.ignored + 1 } }
  else
    { stats := Stats.update s.stats folder
        (fun fs => { fs with files := fs.files + 1, bytes := fs.bytes + e.size }),
      totals := { s.totals with files := s.totals.files + 1
                                bytes := s.totals.bytes + e.size } }

/-- The whole scan pass over the paginator's pages. -/
def scanPages (extensions : Option (List String)) (pages : List (List Entry)) : ScanState :=
  pages.foldl (fun st page => page.foldl (scanStep extensions) st) ScanState.init

/-- Component-wise sums over all folder accumulators. -/
def sumFiles (s : Stats) : Nat := (s.map (fun p => p.2.files)).sum
def sumBytes (s : Stats) : Nat := (s.map (fun p => p.2.bytes)).sum
def sumIgnored (s : Stats) : Nat := (s.map (fun p => p.2.ignored)).sum

end S3X

namespace S3X

/-! ### Basic lemmas on the accumulators -/

theorem sumFiles_cons (p : String × FolderStats) (s : Stats) :
    sumFiles (p :: s) = p.2.files + sumFiles s := by
  simp [sumFiles]

theorem sumBytes_cons (p : String × FolderStats) (s : Stats) :
    sumBytes (p :: s) = p.2.bytes + sumBytes s := by
  simp [sumBytes]

theorem sumIgnored_cons (p : String × FolderStats) (s : Stats) :
    sumIgnored (p :: s) = p.2.ignored + sumIgnored s := by
  simp [sumIgnored]

theorem sumFiles_update (s : Stats) (k : String) (f : FolderStats → FolderStats) (n : Nat)
    (h : ∀ fs, (f fs).files = fs.files + n) :
    sumFiles (Stats.update s k f) = sumFiles s + n := by
  induction s with
  | nil => simp [Stats.update, sumFiles, h, FolderStats.zero]
  | cons p rest ih =>
      obtain ⟨k', v⟩ := p
      by_cases hk : k' = k
      · simp only [Stats.update, if_pos hk, sumFiles_cons, h]
        omega
      · simp only [Stats.update, if_neg hk, sumFiles_cons, ih]
        omega

theorem sumBytes_update (s : Stats) (k : String) (f : FolderStats → FolderStats) (n : Nat)
    (h : ∀ fs, (f fs).bytes = fs.bytes + n) :
    sumBytes (Stats.update s k f) = sumBytes s + n := by
  induction s with
  | nil => simp [Stats.update, sumBytes, h, FolderStats.zero]
  | cons p rest ih =>
      obtain ⟨k', v⟩ := p
      by_cases hk : k' = k
      · simp only [Stats.update, if_pos hk, sumBytes_cons, h]
        omega
      · simp only [Stats.update, if_neg hk, sumBytes_cons, ih]
        omega

theorem sumIgnored_update (s : Stats) (k : String) (f : FolderStats → FolderStats) (n : Nat)
    (h : ∀ fs, (f fs).ignored = fs.ignored + n) :
    sumIgnored (Stats.update s k f) = sumIgnored s + n := by
  induction s with
  | nil => simp [Stats.update, sumIgnored, h, FolderStats.zero]
  | cons p rest ih =>
      obtain ⟨k', v⟩ := p
      by_cases hk : k' = k
      · simp only [Stats.update, if_pos hk, sumIgnored_cons, h]
        omega
      · simp only [Stats.update, if_neg hk, sumIgnored_cons, ih]
        omega

/-- The sum invariant tying the three global totals to the per-folder sums. -/
def SumInv (st : ScanState) : Prop :=
  st.totals.files = sumFiles st.stats ∧ st.totals.bytes = sumBytes st.stats ∧
    st.totals.ignored = sumIgnored st.stats

theorem scanStep_sumInv (ext : Option (List String)) (s : ScanState) (e : Entry)
    (h : SumInv s) : SumInv (scanStep ext s e) := by
  obtain ⟨h1, h2, h3⟩ := h
  unfold scanStep
  by_cases hm : endsWithSlash e.key
  · simpa [hm] using ⟨h1, h2, h3⟩
  · by_cases hi : entryIgnored ext e.key
    · simp only [hm, hi, if_pos, if_neg, Bool.false_eq_true, if_false, if_true, SumInv]
      refine ⟨?_, ?_, ?_⟩
      · rw [sumFiles_update _ _ _ 0 (fun fs => by simp)]; omega
      · rw [sumBytes_update _ _ _ 0 (fun fs => by simp)]; omega
      · rw [sumIgnored_update _ _ _ 1 (fun fs => by simp)]; omega
    · simp only [hm, hi, Bool.false_eq_true, if_false, SumInv]
      refine ⟨?_, ?_, ?_⟩
      · rw [sumFiles_update _ _ _ 1 (fun fs => by simp)]; omega
      · rw [sumBytes_update _ _ _ e.size (fun fs => by simp)]; omega
      · rw [sumIgnored_update _ _ _ 0 (fun fs => by simp)]; omega

theorem foldl_scanStep_sumInv (ext : Option (List String)) (l : List Entry) (s : ScanState)
    (h : SumInv s) : SumInv (l.foldl (scanStep ext) s) := by
  induction l generalizing s with
  | nil => exact h
  | cons e rest ih => exact ih _ (scanStep_sumInv ext s e h)

theorem foldl_pages_sumInv (ext : Option (List String)) (pages : List (List Entry))
    (s : ScanState) (h : SumInv s) :
    SumInv (pages.foldl (fun st page => page.foldl (scanStep ext) st) s) := by
  induction pages generalizing s with
  | nil => exact h
  | cons p ps ih => exact ih _ (foldl_scanStep_sumInv ext p s h)

theorem scanPages_sumInv (ext : Option (List String)) (pages : List (List Entry)) :
    SumInv (scanPages ext pages) :=
  foldl_pages_sumInv ext pages ScanState.init ⟨rfl, rfl, rfl⟩

end S3X

namespace S3X

/-! ### Counting characterization of the scan fold -/

theorem foldlPages_eq_foldl_flatten {σ : Type} (f : σ → Entry → σ)
    (pages : List (List Entry)) (s : σ) :
    pages.foldl (fun st page => page.foldl f st) s = (pages.flatten).foldl f s := by
  induction pages generalizing s with
  | nil => rfl
  | cons p ps ih => simp [List.foldl_append, ih]

theorem scanPages_eq_flat (ext : Option (List String)) (pages : List (List Entry)) :
    scanPages ext pages = (pages.flatten).foldl (scanStep ext) ScanState.init :=
  foldlPages_eq_foldl_flatten _ pages _

theorem foldl_scanStep_files (ext : Option (List String)) (l : List Entry) (s : ScanState) :
    (l.foldl (scanStep ext) s).totals.files
      = s.totals.files + (l.filter (counted ext)).length := by
  induction l generalizing s with
  | nil => rfl
  | cons e rest ih =>
      by_cases hm : endsWithSlash e.key
      · simp [List.foldl_cons, scanStep, hm, ih, counted]
      · by_cases hi : entryIgnored ext e.key
        · simp [List.foldl_cons, scanStep, hm, hi, ih, counted]
        · simp only [List.foldl_cons, scanStep, hm, hi, Bool.false_eq_true, if_false, ih,
            counted, List.filter_cons]
          simp [hm, hi]
          omega

theorem foldl_scanStep_bytes (ext : Option (List String)) (l : List Entry) (s : ScanState) :
    (l.foldl (scanStep ext) s).totals.bytes
      = s.totals.bytes + ((l.filter (counted ext)).map Entry.size).sum := by
  induction l generalizing s with
  | nil => rfl
  | cons e rest ih =>
      by_cases hm : endsWithSlash e.key
      · simp [List.foldl_cons, scanStep, hm, ih, counted]
      · by_cases hi : entryIgnored ext e.key
        · simp [List.foldl_cons, scanStep, hm, hi, ih, counted]
        · simp only [List.foldl_cons, scanStep, hm, hi, Bool.false_eq_true, if_false, ih,
            counted, List.filter_cons]
          simp [hm, hi]
          omega

theorem foldl_scanStep_ignored (ext : Option (List String)) (l : List Entry) (s : ScanState) :
    (l.foldl (scanStep ext) s).totals.ignored
      = s.totals.ignored
        + (l.filter (fun e => !endsWithSlash e.key && entryIgnored ext e.key)).length := by
  induction l generalizing s with
  | nil => rfl
  | cons e rest ih =>
      by_cases hm : endsWithSlash e.key
      · simp [List.foldl_cons, scanStep, hm, ih]
      · by_cases hi : entryIgnored ext e.key
        · simp only [List.foldl_cons, scanStep, hm, hi, Bool.false_eq_true, if_false, if_true,
            ih, List.filter_cons]
          simp [hm, hi]
          omega
        · simp [List.foldl_cons, scanStep, hm, hi, ih]

end S3X

namespace S3X

/-! ### Transfer pass -/

/-- An uncaught Python exception, as the script's callers see it. -/
inductive PyErr where
  | runtimeError
  | transferError (msg : String)
deriving Repr, DecidableEq

/-- `downloaded_files` / `downloaded_bytes`, plus the ordered record of the
local writes performed, as `(local path, key)` pairs. -/
structure TransferState where
  downloaded_files : Nat
  downloaded_bytes : Nat
  writes : List (String × String)
deriving Repr, DecidableEq

def TransferState.init : TransferState := ⟨0, 0, []⟩

/-- A (possibly aborted) run of the download loop: the first uncaught
error if any, the keys passed to `s3.download_file` in order, and the
accumulated totals and writes. -/
structure TransferRun where
  error : Option PyErr
  fetched : List String
  state : TransferState
deriving Repr, DecidableEq

def TransferRun.init : TransferRun := ⟨none, [], TransferState.init⟩

/-- One iteration of the download loop body (lines 98–123), driven by the
outcome `fetch key` of the `s3.download_file` call (also covering a local
write failure).  Once an error has been raised the loop is unreachable, so
the run is absorbed. -/
def transferRunStep (extensions : Option (List String)) (destRoot : String)
    (fetch : String → Option PyErr) (r : TransferRun) (e : Entry) : TransferRun :=
  match r.error with
  | some _ => r
  | none =>
      if endsWithSlash e.key then r
      else if entryIgnored extensions e.key then r
      else
        match fetch e.key with
        | some err =>
            { r with fetched := r.fetched ++ [e.key]
                     error := some err }
        | none =>
            { r with
                fetched := r.fetched ++ [e.key]
                state :=
                  { downloaded_files := r.state.downloaded_files + 1
                    downloaded_bytes := r.state.downloaded_bytes + e.size
                    writes := r.state.writes ++ [(pathJoin destRoot e.key, e.key)] } }

/-- The whole download pass over the second enumeration's pages. -/
def transferRunPages (extensions : Option (List String)) (destRoot : String)
    (fetch : String → Option PyErr) (pages : List (List Entry)) : TransferRun :=
  pages.foldl (fun r page => page.foldl (transferRunStep extensions destRoot fetch) r)
    TransferRun.init

/-- The transfer pass when every fetch succeeds. -/
def transferPages (extensions : Option (List String)) (destRoot : String)
    (pages : List (List Entry)) : TransferState :=
  (transferRunPages extensions destRoot (fun _ => none) pages).state

/-- Lines 89–91: the totals stay at their zero initialization when
`--download` is not set. -/
def transferResult (download : Bool) (extensions : Option (List String))
    (destRoot : String) (pages : List (List Entry)) : TransferState :=
  if download then transferPages extensions destRoot pages else TransferState.init

theorem transferRunPages_eq_flat (ext : Option (List String)) (dest : String)
    (fetch : String → Option PyErr) (pages : List (List Entry)) :
    transferRunPages ext dest fetch pages
      = (pages.flatten).foldl (transferRunStep ext dest fetch) TransferRun.init :=
  foldlPages_eq_foldl_flatten _ pages _

/-- An aborted run absorbs the rest of the listing. -/
theorem foldl_transferRunStep_error (ext : Option (List String)) (dest : String)
    (fetch : String → Option PyErr) (l : List Entry) (r : TransferRun) (err : PyErr)
    (h : r.error = some err) :
    l.foldl (transferRunStep ext dest fetch) r = r := by
  induction l with
  | nil => rfl
  | cons e rest ih => simp [List.foldl_cons, transferRunStep, h, ih]

/-- As long as every counted entry fetches successfully, the download loop
accumulates exactly the counted entries, in order. -/
theorem foldl_transferRunStep_ok (ext : Option (List String)) (dest : String)
    (fetch : String → Option PyErr) (l : List Entry) (r : TransferRun)
    (hr : r.error = none) (hok : ∀ e ∈ l, counted ext e = true → fetch e.key = none) :
    l.foldl (transferRunStep ext dest fetch) r =
      { error := none
        fetched := r.fetched ++ (l.filter (counted ext)).map Entry.key
        state :=
          { downloaded_files := r.state.downloaded_files + (l.filter (counted ext)).length
            downloaded_bytes :=
              r.state.downloaded_bytes + ((l.filter (counted ext)).map Entry.size).sum
            writes :=
              r.state.writes
                ++ (l.filter (counted ext)).map (fun e => (pathJoin dest e.key, e.key)) } } := by
  induction l generalizing r with
  | nil =>
      obtain ⟨er, fe, st⟩ := r
      obtain ⟨df, db, w⟩ := st
      simp only [List.foldl_nil, List.filter_nil, List.map_nil, List.append_nil,
        List.length_nil, List.sum_nil, Nat.add_zero] at hr ⊢
      subst hr
      rfl
  | cons e rest ih =>
      by_cases hm : endsWithSlash e.key
      · have hc : counted ext e = false := by simp [counted, hm]
        simp only [List.foldl_cons, transferRunStep, hr, hm, if_true, List.filter_cons, hc,
          Bool.false_eq_true, if_false]
        exact ih r hr (fun x hx hcx => hok x (List.mem_cons_of_mem _ hx) hcx)
      · by_cases hi : entryIgnored ext e.key
        · have hc : counted ext e = false := by simp [counted, hi]
          simp only [List.foldl_cons, transferRunStep, hr, hm, hi, Bool.false_eq_true,
            if_false, if_true, List.filter_cons, hc]
          exact ih r hr (fun x hx hcx => hok x (List.mem_cons_of_mem _ hx) hcx)
        · have hc : counted ext e = true := by simp [counted, hm, hi]
          have hf : fetch e.key = none := hok e (List.mem_cons_self e rest) hc
          simp only [List.foldl_cons, transferRunStep, hr, hm, hi, Bool.false_eq_true,
            if_false, hf, List.filter_cons, hc, if_true]
          rw [ih _ rfl (fun x hx hcx => hok x (List.mem_cons_of_mem _ hx) hcx)]
          simp [List.append_assoc]
          omega

end S3X

namespace S3X

/-- A counted entry whose fetch (or local write) raises aborts the loop at
that entry: it is fetched once, nothing is written for it. -/
theorem transferRunStep_fail (ext : Option (List String)) (dest : String)
    (fetch : String → Option PyErr) (r : TransferRun) (e : Entry) (err : PyErr)
    (hr : r.error = none) (hc : counted ext e = true) (hf : fetch e.key = some err) :
    transferRunStep ext dest fetch r e =
      { r with fetched := r.fetched ++ [e.key]
               error := some err } := by
  have hm : endsWithSlash e.key = false := by
    cases h : endsWithSlash e.key
    · rfl
    · simp [counted, h] at hc
  have hi : entryIgnored ext e.key = false := by
    cases h : entryIgnored ext e.key
    · rfl
    · simp [counted, h] at hc
  simp [transferRunStep, hr, hm, hi, hf]

/-! ### Dict access lemmas -/

theorem Stats.get_update_same (s : Stats) (k : String) (f : FolderStats → FolderStats) :
    (Stats.update s k f).get k = f (s.get k) := by
  induction s with
  | nil => simp [Stats.update, Stats.get, List.lookup]
  | cons p rest ih =>
      obtain ⟨k', v⟩ := p
      by_cases hk : k' = k
      · subst hk
        simp [Stats.update, Stats.get, List.lookup]
      · have hk' : (k == k') = false := by simpa using fun e => hk e.symm
        simp only [Stats.update, if_neg hk, Stats.get, List.lookup, hk']
        exact ih

theorem Stats.get_update_other (s : Stats) (k g : String) (f : FolderStats → FolderStats)
    (h : g ≠ k) :
    (Stats.update s k f).get g = s.get g := by
  induction s with
  | nil =>
      have h' : (g == k) = false := by simpa using h
      simp [Stats.update, Stats.get, List.lookup, h']
  | cons p rest ih =>
      obtain ⟨k', v⟩ := p
      by_cases hk : k' = k
      · subst hk
        have h' : (g == k') = false := by simpa using h
        simp [Stats.update, Stats.get, List.lookup, h']
      · by_cases hg : k' = g
        · subst hg
          simp [Stats.update, hk, Stats.get, List.lookup]
        · have hg' : (g == k') = false := by simpa using fun e => hg e.symm
          simp only [Stats.update, if_neg hk, Stats.get, List.lookup, hg']
          exact ih

/-! ### Report ordering

`sorted(stats)` sorts the folder `Path` objects.  pathlib (up to
Python 3.11) compares two pure paths by the lexicographic order of their
segment tuples, each segment compared as a string by code points — not by
comparing the joined path strings. -/

/-- Strict lexicographic lifting of a strict order, exactly how Python
compares sequences: first differing position decides, a strict prefix is
smaller. -/
def lexLt {α : Type} [DecidableEq α] (lt : α → α → Bool) : List α → List α → Bool
  | [], [] => false
  | [], _ :: _ => true
  | _ :: _, [] => false
  | a :: as, b :: bs => if lt a b then true else if a = b then lexLt lt as bs else false

theorem lexLt_cons_iff {α : Type} [DecidableEq α] (lt : α → α → Bool) (a b : α)
    (as bs : List α) :
    lexLt lt (a :: as) (b :: bs) = true
      ↔ lt a b = true ∨ (a = b ∧ lexLt lt as bs = true) := by
  by_cases h1 : lt a b <;> by_cases h2 : a = b <;> simp [lexLt, h1, h2]

theorem lexLt_irrefl {α : Type} [DecidableEq α] (lt : α → α → Bool)
    (hasymm : ∀ a b, lt a b = true → lt b a = false) (a : α) : lt a a = false := by
  cases h : lt a a
  · rfl
  · have := hasymm a a h
    simp [h] at this

theorem lexLt_asymm {α : Type} [DecidableEq α] (lt : α → α → Bool)
    (hasymm : ∀ a b, lt a b = true → lt b a = false) :
    ∀ l1 l2, lexLt lt l1 l2 = true → lexLt lt l2 l1 = false
  | [], [] => by simp [lexLt]
  | [], _ :: _ => by simp [lexLt]
  | _ :: _, [] => by simp [lexLt]
  | a :: as, b :: bs => by
      intro h
      rcases (lexLt_cons_iff lt a b as bs).1 h with hab | ⟨hab, htail⟩
      · cases hba : lexLt lt (b :: bs) (a :: as)
        · rfl
        · rcases (lexLt_cons_iff lt b a bs as).1 hba with hba' | ⟨hba', _⟩
          · have := hasymm a b hab
            simp [hba'] at this
          · subst hba'
            have := lexLt_irrefl lt hasymm b
            simp [this] at hab
      · subst hab
        have htail' := lexLt_asymm lt hasymm as bs htail
        simp [lexLt, lexLt_irrefl lt hasymm, htail']

theorem lexLt_trichotomy {α : Type} [DecidableEq α] (lt : α → α → Bool)
    (htri : ∀ a b, lt a b = true ∨ a = b ∨ lt b a = true) :
    ∀ l1 l2 : List α, lexLt lt l1 l2 = true ∨ l1 = l2 ∨ lexLt lt l2 l1 = true
  | [], [] => Or.inr (Or.inl rfl)
  | [], _ :: _ => by simp [lexLt]
  | _ :: _, [] => by simp [lexLt]
  | a :: as, b :: bs => by
      rcases htri a b with hab | hab | hba
      · exact Or.inl ((lexLt_cons_iff lt a b as bs).2 (Or.inl hab))
      · subst hab
        rcases lexLt_trichotomy lt htri as bs with h | h | h
        · exact Or.inl ((lexLt_cons_iff lt a a as bs).2 (Or.inr ⟨rfl, h⟩))
        · exact Or.inr (Or.inl (by rw [h]))
        · exact Or.inr (Or.inr ((lexLt_cons_iff lt a a bs as).2 (Or.inr ⟨rfl, h⟩)))
      · exact Or.inr (Or.inr ((lexLt_cons_iff lt b a bs as).2 (Or.inl hba)))

theorem lexLt_trans {α : Type} [DecidableEq α] (lt : α → α → Bool)
    (htr : ∀ a b c, lt a b = true → lt b c = true → lt a c = true) :
    ∀ l1 l2 l3 : List α, lexLt lt l1 l2 = true → lexLt lt l2 l3 = true →
      lexLt lt l1 l3 = true
  | l1, [], _, h12, _ => by cases l1 <;> simp [lexLt] at h12
  | [], _ :: _, [], _, h23 => by simp [lexLt] at h23
  | [], _ :: _, _ :: _, _, _ => by simp [lexLt]
  | _ :: _, _ :: _, [], _, h23 => by simp [lexLt] at h23
  | a :: as, b :: bs, c :: cs, h12, h23 => by
      rcases (lexLt_cons_iff lt a b as bs).1 h12 with hab | ⟨hab, ht12⟩
      · rcases (lexLt_cons_iff lt b c bs cs).1 h23 with hbc | ⟨hbc, _⟩
        · exact (lexLt_cons_iff lt a c as cs).2 (Or.inl (htr a b c hab hbc))
        · subst hbc
          exact (lexLt_cons_iff lt a b as cs).2 (Or.inl hab)
      · subst hab
        rcases (lexLt_cons_iff lt a c bs cs).1 h23 with hac | ⟨hac, ht23⟩
        · exact (lexLt_cons_iff lt a c as cs).2 (Or.inl hac)
        · subst hac
          exact (lexLt_cons_iff lt a a as cs).2
            (Or.inr ⟨rfl, lexLt_trans lt htr as bs cs ht12 ht23⟩)

end S3X

namespace S3X

/-- Python `<` on characters: code-point comparison. -/
def charLtB (a b : Char) : Bool := decide (a.toNat < b.toNat)

theorem charLtB_asymm (a b : Char) (h : charLtB a b = true) : charLtB b a = false := by
  simp only [charLtB, decide_eq_true_eq] at h
  simp only [charLtB, decide_eq_false_iff_not]
  omega

theorem charLtB_tri (a b : Char) : charLtB a b = true ∨ a = b ∨ charLtB b a = true := by
  simp only [charLtB, decide_eq_true_eq]
  rcases Nat.lt_trichotomy a.toNat b.toNat with h | h | h
  · exact Or.inl h
  · refine Or.inr (Or.inl ?_)
    have h2 : Char.ofNat a.toNat = Char.ofNat b.toNat := congrArg _ h
    rwa [Char.ofNat_toNat, Char.ofNat_toNat] at h2
  · exact Or.inr (Or.inr h)

theorem charLtB_trans (a b c : Char) (h1 : charLtB a b = true) (h2 : charLtB b c = true) :
    charLtB a c = true := by
  simp only [charLtB, decide_eq_true_eq] at *
  omega

/-- Python `<` on strings (as character lists): lexicographic by code point. -/
def strLtB (x y : List Char) : Bool := lexLt charLtB x y

theorem strLtB_asymm (x y : List Char) (h : strLtB x y = true) : strLtB y x = false :=
  lexLt_asymm charLtB charLtB_asymm x y h

theorem strLtB_tri (x y : List Char) : strLtB x y = true ∨ x = y ∨ strLtB y x = true :=
  lexLt_trichotomy charLtB charLtB_tri x y

theorem strLtB_trans (x y z : List Char) (h1 : strLtB x y = true) (h2 : strLtB y z = true) :
    strLtB x z = true :=
  lexLt_trans charLtB charLtB_trans x y z h1 h2

/-- pathlib's `PurePath.__lt__` (Python ≤ 3.11): compare the tuples of path
segments, each segment as a string. -/
def partsLtB (x y : List (List Char)) : Bool := lexLt strLtB x y

theorem partsLtB_asymm (x y : List (List Char)) (h : partsLtB x y = true) :
    partsLtB y x = false :=
  lexLt_asymm strLtB strLtB_asymm x y h

theorem partsLtB_tri (x y : List (List Char)) :
    partsLtB x y = true ∨ x = y ∨ partsLtB y x = true :=
  lexLt_trichotomy strLtB strLtB_tri x y

theorem partsLtB_trans (x y z : List (List Char)) (h1 : partsLtB x y = true)
    (h2 : partsLtB y z = true) : partsLtB x z = true :=
  lexLt_trans strLtB strLtB_trans x y z h1 h2

/-- `Path(a) < Path(b)` for the folder keys held in `stats`. -/
def pathLtB (a b : String) : Bool := partsLtB (pathPartsL a.data) (pathPartsL b.data)

/-- The ascending order `sorted` produces: `a` precedes `b` when
`not (Path(b) < Path(a))`. -/
def pathLe (a b : String) : Prop := pathLtB b a = false

instance pathLe.decRel : DecidableRel pathLe :=
  fun a b => inferInstanceAs (Decidable (pathLtB b a = false))

instance pathLe.isTotal : IsTotal String pathLe where
  total a b := by
    unfold pathLe
    cases h : pathLtB b a
    · exact Or.inl rfl
    · exact Or.inr (partsLtB_asymm _ _ h)

instance pathLe.isTrans : IsTrans String pathLe where
  trans a b c hab hbc := by
    unfold pathLe pathLtB at *
    rcases partsLtB_tri (pathPartsL a.data) (pathPartsL b.data) with h1 | h1 | h1
    · rcases partsLtB_tri (pathPartsL b.data) (pathPartsL c.data) with h2 | h2 | h2
      · cases hca : partsLtB (pathPartsL c.data) (pathPartsL a.data)
        · rfl
        · have : partsLtB (pathPartsL c.data) (pathPartsL b.data) = true :=
            partsLtB_trans _ _ _ hca h1
          rw [this] at hbc
          exact absurd hbc (by simp)
      · rw [← h2]
        exact hab
      · rw [h2] at hbc
        exact absurd hbc (by simp)
    · rw [h1]
      exact hbc
    · rw [h1] at hab
      exact absurd hab (by simp)

/-- The iteration order of the per-folder detail report: `sorted(stats)`,
i.e. the folder keys in ascending pathlib path order.  (The keys of
`stats` are distinct, so any sorting algorithm yields this same list.) -/
def reportFolders (s : Stats) : List String :=
  List.insertionSort pathLe (s.map Prod.fst)

end S3X

deriving instance DecidableEq for Except

namespace S3X

/-! ### Command line, validation, and the whole run -/

/-- The parsed command line (`args`).  `exts` is `None` when
`--extensions` is absent, `Some []` when it is given with zero values. -/
structure Args where
  pfx : String
  exts : Option (List String)
  details : Bool
  quiet : Bool
  download : Bool
  dest : Option String
deriving Repr, DecidableEq

/-- Python truthiness of `args.dest`: `None` and `""` are falsy. -/
def destTruthy (a : Args) : Bool := a.dest.getD "" != ""

/-- Lines 25–28: `if args.download and args.dest: DEST_ROOT = Path(args.dest)`,
`elif args.download or args.dest: raise`.  The bare `raise` (no active
exception) surfaces as a RuntimeError; it happens before the S3 client is
constructed, so before any network activity. -/
def validateDest (a : Args) : Except PyErr (Option String) :=
  if a.download && destTruthy a then Except.ok a.dest
  else if a.download || destTruthy a then Except.error PyErr.runtimeError
  else Except.ok none

/-- The printed report, as data: the folder-detail iteration order (empty
when `--details` is off), the three totals, and the download summary line
(present exactly when `--download`). -/
structure Report where
  detailFolders : List String
  totals : FolderStats
  downloaded : Option (Nat × Nat)
deriving Repr, DecidableEq

def mkReport (details download : Bool) (sc : ScanState) (tr : TransferState) : Report :=
  { detailFolders := if details then reportFolders sc.stats else []
    totals := sc.totals
    downloaded := if download then some (tr.downloaded_files, tr.downloaded_bytes) else none }

/-- The whole script: validate the arguments, then (only past validation)
construct the client and consume the two independent listing enumerations
`pages1` / `pages2`, then print the report.  `fetch` gives the outcome of
each `s3.download_file` call; an uncaught error yields no report. -/
def runProgram (a : Args) (pages1 pages2 : List (List Entry))
    (fetch : String → Option PyErr) : Except PyErr Report :=
  match validateDest a with
  | Except.error e => Except.error e
  | Except.ok destOpt =>
      let ext := normalizeExtensions a.exts
      let sc := scanPages ext pages1
      if a.download then
        let run := transferRunPages ext (destOpt.getD "") fetch pages2
        match run.error with
        | some err => Except.error err
        | none => Except.ok (mkReport a.details true sc run.state)
      else Except.ok (mkReport a.details false sc TransferState.init)

/-! ### Progress display as a side channel -/

/-- Scan loop body together with the progress bar: `update()` runs after
each counted entry and displays only when the bar is not disabled
(`disable=args.quiet`).  The second component counts displayed updates. -/
def scanStepQ (quiet : Bool) (extensions : Option (List String))
    (p : ScanState × Nat) (e : Entry) : ScanState × Nat :=
  let folder := parentPath e.key
  if endsWithSlash e.key then p
  else if entryIgnored extensions e.key then
    ({ stats := Stats.update p.1.stats folder (fun fs => { fs with ignored := fs.ignored + 1 }),
       totals := { p.1.totals with ignored := p.1.totals.ignored + 1 } }, p.2)
  else
    ({ stats := Stats.update p.1.stats folder
         (fun fs => { fs with files := fs.files + 1, bytes := fs.bytes + e.size }),
       totals := { p.1.totals with files := p.1.totals.files + 1
                                   bytes := p.1.totals.bytes + e.size } },
     if quiet then p.2 else p.2 + 1)

def scanPagesQ (quiet : Bool) (extensions : Option (List String))
    (pages : List (List Entry)) : ScanState × Nat :=
  pages.foldl (fun p page => page.foldl (scanStepQ quiet extensions) p) (ScanState.init, 0)

/-- Download loop body together with its progress bar (`set_postfix` and
`update(size)` after each download, displayed unless disabled). -/
def transferRunStepQ (quiet : Bool) (extensions : Option (List String)) (destRoot : String)
    (fetch : String → Option PyErr) (p : TransferRun × Nat) (e : Entry) : TransferRun × Nat :=
  match p.1.error with
  | some _ => p
  | none =>
      if endsWithSlash e.key then p
      else if entryIgnored extensions e.key then p
      else
        match fetch e.key with
        | some err =>
            ({ p.1 with fetched := p.1.fetched ++ [e.key]
                        error := some err }, p.2)
        | none =>
            ({ p.1 with
                 fetched := p.1.fetched ++ [e.key]
                 state :=
                   { downloaded_files := p.1.state.downloaded_files + 1
                     downloaded_bytes := p.1.state.downloaded_bytes + e.size
                     writes := p.1.state.writes ++ [(pathJoin destRoot e.key, e.key)] } },
             if quiet then p.2 else p.2 + 1)

def transferRunPagesQ (quiet : Bool) (extensions : Option (List String)) (destRoot : String)
    (fetch : String → Option PyErr) (pages : List (List Entry)) : TransferRun × Nat :=
  pages.foldl (fun p page => page.foldl (transferRunStepQ quiet extensions destRoot fetch) p)
    (TransferRun.init, 0)

theorem scanStepQ_fst (quiet : Bool) (ext : Option (List String)) (p : ScanState × Nat)
    (e : Entry) : (scanStepQ quiet ext p e).1 = scanStep ext p.1 e := by
  by_cases hm : endsWithSlash e.key
  · simp [scanStepQ, scanStep, hm]
  · by_cases hi : entryIgnored ext e.key
    · simp [scanStepQ, scanStep, hm, hi]
    · simp [scanStepQ, scanStep, hm, hi]

theorem transferRunStepQ_fst (quiet : Bool) (ext : Option (List String)) (dest : String)
    (fetch : String → Option PyErr) (p : TransferRun × Nat) (e : Entry) :
    (transferRunStepQ quiet ext dest fetch p e).1 = transferRunStep ext dest fetch p.1 e := by
  rcases he : p.1.error with _ | err
  · by_cases hm : endsWithSlash e.key
    · simp [transferRunStepQ, transferRunStep, he, hm]
    · by_cases hi : entryIgnored ext e.key
      · simp [transferRunStepQ, transferRunStep, he, hm, hi]
      · rcases hf : fetch e.key with _ | err
        · simp [transferRunStepQ, transferRunStep, he, hm, hi, hf]
        · simp [transferRunStepQ, transferRunStep, he, hm, hi, hf]
  · simp [transferRunStepQ, transferRunStep, he]

theorem scanPagesQ_fst (quiet : Bool) (ext : Option (List String))
    (pages : List (List Entry)) : (scanPagesQ quiet ext pages).1 = scanPages ext pages := by
  have inner : ∀ (l : List Entry) (p : ScanState × Nat),
      (l.foldl (scanStepQ quiet ext) p).1 = l.foldl (scanStep ext) p.1 := by
    intro l
    induction l with
    | nil => intro p; rfl
    | cons e rest ih =>
        intro p
        rw [List.foldl_cons, List.foldl_cons, ih, scanStepQ_fst]
  unfold scanPagesQ scanPages
  generalize hinit : ((ScanState.init, 0) : ScanState × Nat) = p0
  have hfst : p0.1 = ScanState.init := by rw [← hinit]
  rw [← hfst]
  clear hinit hfst
  induction pages generalizing p0 with
  | nil => rfl
  | cons pg pgs ih => rw [List.foldl_cons, List.foldl_cons, ih, inner]

theorem transferRunPagesQ_fst (quiet : Bool) (ext : Option (List String)) (dest : String)
    (fetch : String → Option PyErr) (pages : List (List Entry)) :
    (transferRunPagesQ quiet ext dest fetch pages).1 = transferRunPages ext dest fetch pages := by
  have inner : ∀ (l : List Entry) (p : TransferRun × Nat),
      (l.foldl (transferRunStepQ quiet ext dest fetch) p).1
        = l.foldl (transferRunStep ext dest fetch) p.1 := by
    intro l
    induction l with
    | nil => intro p; rfl
    | cons e rest ih =>
        intro p
        rw [List.foldl_cons, List.foldl_cons, ih, transferRunStepQ_fst]
  unfold transferRunPagesQ transferRunPages
  generalize hinit : ((TransferRun.init, 0) : TransferRun × Nat) = p0
  have hfst : p0.1 = TransferRun.init := by rw [← hinit]
  rw [← hfst]
  clear hinit hfst
  induction pages generalizing p0 with
  | nil => rfl
  | cons pg pgs ih => rw [List.foldl_cons, List.foldl_cons, ih, inner]

/-! ### The spec's wording of the suffix rule (for the filter-test claim) -/

/-- Modelled from the spec: "compute the entry's suffix (the substring
from the last `.` in the final path segment onward, empty string if
none)". -/
def specSuffix (key : String) : String :=
  let name := pathNameL key.data
  match lastIdxOf '.' name with
  | none => ""
  | some i => String.mk (name.drop i)

/-- The amended suffix rule: as `specSuffix`, but the suffix is empty also
when that last dot is the first or the last character of the final segment
(pathlib's actual `suffix`, e.g. for hidden files like `.nc`). -/
def specSuffixAmended (key : String) : String :=
  let name := pathNameL key.data
  match lastIdxOf '.' name with
  | none => ""
  | some i => if 0 < i && i + 1 < name.length then String.mk (name.drop i) else ""

end S3X

namespace S3X

/-! ### Claim theorems -/

/-- C1: for every finite sequence of listing pages and every filter
setting, after the scan pass has consumed the whole sequence the global
totals equal the component-wise sums over all per-folder accumulators
(files, bytes and ignored alike). -/
theorem C1_scan_sum_invariant (ext : Option (List String)) (pages : List (List Entry)) :
    (scanPages ext pages).totals.files = sumFiles (scanPages ext pages).stats
      ∧ (scanPages ext pages).totals.bytes = sumBytes (scanPages ext pages).stats
      ∧ (scanPages ext pages).totals.ignored = sumIgnored (scanPages ext pages).stats :=
  scanPages_sumInv ext pages

/-- C2: on identical listings the transfer pass downloads exactly the
entries the scan pass counts (same marker skip and same filter test), each
written to `destinationRoot / key`; its `files` total is the number of
writes, its `bytes` total the sum of their listed sizes (equal to the scan
pass's counted bytes), and both totals stay zero when the pass does not
run. -/
theorem C2_transfer_matches_scan (ext : Option (List String)) (dest : String)
    (pages : List (List Entry)) :
    (transferPages ext dest pages).writes
        = ((pages.flatten).filter (counted ext)).map (fun e => (pathJoin dest e.key, e.key))
      ∧ (transferPages ext dest pages).downloaded_files
          = (transferPages ext dest pages).writes.length
      ∧ (transferPages ext dest pages).downloaded_files = (scanPages ext pages).totals.files
      ∧ (transferPages ext dest pages).downloaded_bytes
          = (((pages.flatten).filter (counted ext)).map Entry.size).sum
      ∧ (transferPages ext dest pages).downloaded_bytes = (scanPages ext pages).totals.bytes
      ∧ transferResult false ext dest pages = TransferState.init := by
  have hok := foldl_transferRunStep_ok ext dest (fun _ => none) pages.flatten
    TransferRun.init rfl (fun _ _ _ => rfl)
  have hT : transferPages ext dest pages =
      { downloaded_files := ((pages.flatten).filter (counted ext)).length
        downloaded_bytes := (((pages.flatten).filter (counted ext)).map Entry.size).sum
        writes := ((pages.flatten).filter (counted ext)).map
          (fun e => (pathJoin dest e.key, e.key)) } := by
    unfold transferPages
    rw [transferRunPages_eq_flat, hok]
    simp [TransferRun.init, TransferState.init]
  have hF : (scanPages ext pages).totals.files
      = ((pages.flatten).filter (counted ext)).length := by
    rw [scanPages_eq_flat, foldl_scanStep_files]
    simp [ScanState.init, FolderStats.zero]
  have hB : (scanPages ext pages).totals.bytes
      = (((pages.flatten).filter (counted ext)).map Entry.size).sum := by
    rw [scanPages_eq_flat, foldl_scanStep_bytes]
    simp [ScanState.init, FolderStats.zero]
  refine ⟨by rw [hT], by rw [hT]; exact (List.length_map _ _).symm, by rw [hT, hF],
    by rw [hT], by rw [hT, hB], rfl⟩

/-- C5: an entry whose key ends in `/` (directory marker) changes no
counter in either pass — per-folder files/bytes/ignored, the global
totals, and the transfer totals are all left untouched, for every filter
setting. -/
theorem C5_marker_never_counts (ext : Option (List String)) (dest : String)
    (fetch : String → Option PyErr) (s : ScanState) (r : TransferRun) (e : Entry)
    (h : endsWithSlash e.key = true) :
    scanStep ext s e = s ∧ transferRunStep ext dest fetch r e = r := by
  constructor
  · simp [scanStep, h]
  · rcases he : r.error with _ | err
    · simp [transferRunStep, he, h]
    · simp [transferRunStep, he]

theorem C5_witness :
    scanStep (some [".nc"]) ScanState.init ⟨"data/b/", 0⟩ = ScanState.init
      ∧ transferRunStep (some [".nc"]) "out" (fun _ => none) TransferRun.init ⟨"data/b/", 0⟩
          = TransferRun.init :=
  C5_marker_never_counts (some [".nc"]) "out" (fun _ => none) ScanState.init TransferRun.init
    ⟨"data/b/", 0⟩ (by decide)

/-- C6: grouping is by parent path: a non-marker entry updates exactly the
accumulator keyed by its parent path (all other folders' accumulators are
untouched, and that one accumulator registers the entry as counted or
ignored); concretely, `x/y/f1` and `x/y/f2` land in the same accumulator
`x/y` while `x/z/f3` lands in the distinct accumulator `x/z`. -/
theorem C6_grouping_by_parent (ext : Option (List String)) (s : ScanState) (e : Entry)
    (h : endsWithSlash e.key = false) :
    (((scanStep ext s e).stats.get (parentPath e.key)).files
          + ((scanStep ext s e).stats.get (parentPath e.key)).ignored
        = (s.stats.get (parentPath e.key)).files
          + (s.stats.get (parentPath e.key)).ignored + 1)
      ∧ (∀ g, g ≠ parentPath e.key → (scanStep ext s e).stats.get g = s.stats.get g)
      ∧ parentPath "x/y/f1" = "x/y" ∧ parentPath "x/y/f2" = "x/y"
      ∧ parentPath "x/z/f3" = "x/z"
      ∧ (scanPages none [[⟨"x/y/f1", 1⟩, ⟨"x/y/f2", 2⟩, ⟨"x/z/f3", 4⟩]]).stats
          = [("x/y", ⟨2, 3, 0⟩), ("x/z", ⟨1, 4, 0⟩)] := by
  refine ⟨?_, ?_, by decide, by decide, by decide, by decide⟩
  · by_cases hi : entryIgnored ext e.key
    · simp [scanStep, h, hi, Stats.get_update_same]
      omega
    · simp [scanStep, h, hi, Stats.get_update_same]
      omega
  · intro g hg
    by_cases hi : entryIgnored ext e.key
    · simp [scanStep, h, hi, Stats.get_update_other _ _ _ _ hg]
    · simp [scanStep, h, hi, Stats.get_update_other _ _ _ _ hg]

theorem C6_witness :
    ((scanStep none ScanState.init ⟨"x/y/f1", 5⟩).stats.get (parentPath "x/y/f1")).files
        + ((scanStep none ScanState.init ⟨"x/y/f1", 5⟩).stats.get (parentPath "x/y/f1")).ignored
      = (ScanState.init.stats.get (parentPath "x/y/f1")).files
        + (ScanState.init.stats.get (parentPath "x/y/f1")).ignored + 1 :=
  (C6_grouping_by_parent none ScanState.init ⟨"x/y/f1", 5⟩ (by decide)).1

end S3X

namespace S3X

/-- C3 counterexample: the claimed suffix rule ("the substring from the
last `.` in the final path segment onward") disagrees with the code on the
key `a/b/.nc` — the claimed rule yields `.nc`, so under filter `{".nc"}`
the entry would be counted, but `Path(key).suffix` is empty for a hidden
file and the code ignores the entry. -/
theorem C3_counterexample :
    specSuffix "a/b/.nc" = ".nc"
      ∧ pathSuffix "a/b/.nc" = ""
      ∧ entryIgnored (normalizeExtensions (some [".nc"])) "a/b/.nc" = true
      ∧ counted (normalizeExtensions (some [".nc"])) ⟨"a/b/.nc", 3⟩ = false := by
  refine ⟨by decide, by decide, by decide, by decide⟩

/-- C3 amended: the suffix used for the filter test is the substring from
the last `.` of the final path segment onward provided that dot is neither
the segment's first nor its last character, and the empty string otherwise
(hence also for dotless segments); it is lower-cased before the membership
test.  Consequently with filter `{".nc"}` the key `a/b/data.NC` is counted
and `a/b/data.tar` is ignored. -/
theorem C3_amended_suffix_rule (key : String) (exts : List String) :
    pathSuffix key = specSuffixAmended key
      ∧ entryIgnored (some exts) key
          = (!exts.isEmpty && !exts.contains (lowerStr (pathSuffix key)))
      ∧ counted (normalizeExtensions (some [".nc"])) ⟨"a/b/data.NC", 1⟩ = true
      ∧ counted (normalizeExtensions (some [".nc"])) ⟨"a/b/data.tar", 1⟩ = false :=
  ⟨rfl, rfl, by decide, by decide⟩

/-- C4 counterexample: the report does not iterate folders in ascending
lexicographic order of the FolderKey string.  Scanning keys `a/b/f` and
`a.b/g` yields folders `a/b` and `a.b`; `sorted` on the folder `Path`s
(segment-tuple comparison) emits `a/b` before `a.b`, yet as strings
`a.b < a/b` (`.` is code point 0x2E, `/` is 0x2F). -/
theorem C4_counterexample :
    reportFolders (scanPages none [[⟨"a/b/f", 1⟩, ⟨"a.b/g", 1⟩]]).stats = ["a/b", "a.b"]
      ∧ ¬ (("a/b" : String) ≤ "a.b") := by
  refine ⟨by decide, not_le.mpr ?_⟩
  rw [String.lt_iff_toList_lt]
  exact List.Lex.cons (List.Lex.rel (by decide))

/-- C4 amended: when per-folder detail is requested the report iterates
the folders in ascending lexicographic order of their segment tuples (the
`/`-split parts compared component-wise, pathlib's path order), a
permutation of the accumulated folder set; this coincides with string
order except when a segment boundary is compared against a character
ordered before `/`. -/
theorem C4_amended_report_order (s : Stats) :
    List.Sorted pathLe (reportFolders s)
      ∧ (reportFolders s).Perm (s.map Prod.fst)
      ∧ (∀ (sc : ScanState) (tr : TransferState) (dl : Bool),
          (mkReport true dl sc tr).detailFolders = reportFolders sc.stats) :=
  ⟨List.sorted_insertionSort pathLe _, List.perm_insertionSort pathLe _,
    fun _ _ _ => rfl⟩

end S3X

namespace S3X

/-- C7 counterexample: supplying a destination without the download flag
does not always fail — with `--dest ""` (an empty destination string,
which is falsy in Python) and no `--download`, exactly one of the two is
supplied, yet the cross-field check raises nothing and the run completes
normally with a report. -/
theorem C7_counterexample :
    (Args.mk "p" none false false false (some "")).download = false
      ∧ (Args.mk "p" none false false false (some "")).dest.isSome = true
      ∧ validateDest (Args.mk "p" none false false false (some "")) = Except.ok none
      ∧ runProgram (Args.mk "p" none false false false (some "")) [] [] (fun _ => none)
          = Except.ok (mkReport false false ScanState.init TransferState.init) := by
  refine ⟨rfl, rfl, by decide, by decide⟩

/-- C7 amended: with "supplied" read through Python truthiness (an empty
`--dest` string counts as absent): if exactly one of the download flag and
a non-empty destination is supplied, the program raises before any network
activity — the failure is independent of everything the listing or fetch
collaborator would return, so no partial output exists; if both or neither
are supplied, no usage error is raised. -/
theorem C7_amended_usage_check (a : Args) :
    (a.download ≠ destTruthy a →
        validateDest a = Except.error PyErr.runtimeError
          ∧ ∀ (pages1 pages2 : List (List Entry)) (fetch : String → Option PyErr),
              runProgram a pages1 pages2 fetch = Except.error PyErr.runtimeError)
      ∧ (a.download = destTruthy a →
          validateDest a ≠ Except.error PyErr.runtimeError) := by
  constructor
  · intro hne
    have hv : validateDest a = Except.error PyErr.runtimeError := by
      cases hd : a.download <;> cases ht : destTruthy a <;>
        simp_all [validateDest]
    exact ⟨hv, fun pages1 pages2 fetch => by simp [runProgram, hv]⟩
  · intro heq
    cases hd : a.download
    · rw [hd] at heq
      simp [validateDest, hd, ← heq]
    · rw [hd] at heq
      simp [validateDest, hd, ← heq]

theorem C7_witness :
    validateDest (Args.mk "p" none false false true none) = Except.error PyErr.runtimeError
      ∧ runProgram (Args.mk "p" none false false true none) [[⟨"p/x.nc", 1⟩]]
          [[⟨"p/x.nc", 1⟩]] (fun _ => none) = Except.error PyErr.runtimeError
      ∧ validateDest (Args.mk "p" none false false true (some "out"))
          ≠ Except.error PyErr.runtimeError := by
  have h1 := (C7_amended_usage_check (Args.mk "p" none false false true none)).1 (by decide)
  have h2 := (C7_amended_usage_check (Args.mk "p" none false false true (some "out"))).2
    (by decide)
  exact ⟨h1.1, h1.2 [[⟨"p/x.nc", 1⟩]] [[⟨"p/x.nc", 1⟩]] (fun _ => none), h2⟩

/-- C9: progress reporting does not influence the computation — for every
listing and filter setting, the per-folder accumulators, global totals and
transfer run (totals, writes, outcome) are identical whether the progress
bars are displayed or suppressed by `--quiet`, and equal the plain
(progress-free) folds. -/
theorem C9_progress_no_influence (ext : Option (List String)) (dest : String)
    (fetch : String → Option PyErr) (pages pages2 : List (List Entry)) (q1 q2 : Bool) :
    (scanPagesQ q1 ext pages).1 = (scanPagesQ q2 ext pages).1
      ∧ (scanPagesQ q1 ext pages).1 = scanPages ext pages
      ∧ (transferRunPagesQ q1 ext dest fetch pages2).1
          = (transferRunPagesQ q2 ext dest fetch pages2).1
      ∧ (transferRunPagesQ q1 ext dest fetch pages2).1
          = transferRunPages ext dest fetch pages2 := by
  refine ⟨?_, scanPagesQ_fst q1 ext pages, ?_, transferRunPagesQ_fst q1 ext dest fetch pages2⟩
  · rw [scanPagesQ_fst, scanPagesQ_fst]
  · rw [transferRunPagesQ_fst, transferRunPagesQ_fst]

/-- C10: supplying `--extensions` with zero values behaves exactly like
supplying no filter: the normalized filter is `None`, the scan is
identical to the unfiltered scan, nothing is ignored, every non-marker
entry is counted, and the transfer pass downloads every non-marker
entry. -/
theorem C10_empty_extensions_no_filter (pages : List (List Entry)) (dest : String) :
    normalizeExtensions (some []) = none
      ∧ scanPages (normalizeExtensions (some [])) pages = scanPages none pages
      ∧ (scanPages none pages).totals.ignored = 0
      ∧ (scanPages none pages).totals.files
          = ((pages.flatten).filter (fun e => !endsWithSlash e.key)).length
      ∧ transferPages (normalizeExtensions (some [])) dest pages
          = transferPages none dest pages
      ∧ (transferPages none dest pages).writes
          = ((pages.flatten).filter (fun e => !endsWithSlash e.key)).map
              (fun e => (pathJoin dest e.key, e.key)) := by
  have hcnt : ∀ e : Entry, counted none e = !endsWithSlash e.key := by
    intro e
    simp [counted, entryIgnored]
  have hfilt : (pages.flatten).filter (counted none)
      = (pages.flatten).filter (fun e => !endsWithSlash e.key) :=
    List.filter_congr (fun e _ => hcnt e)
  refine ⟨rfl, rfl, ?_, ?_, rfl, ?_⟩
  · rw [scanPages_eq_flat, foldl_scanStep_ignored]
    have : (pages.flatten).filter (fun e => !endsWithSlash e.key && entryIgnored none e.key)
        = [] := by
      simp [entryIgnored]
    rw [this]
    simp [ScanState.init, FolderStats.zero]
  · rw [scanPages_eq_flat, foldl_scanStep_files, hfilt]
    simp [ScanState.init, FolderStats.zero]
  · have hok := foldl_transferRunStep_ok none dest (fun _ => none) pages.flatten
      TransferRun.init rfl (fun _ _ _ => rfl)
    unfold transferPages
    rw [transferRunPages_eq_flat, hok, hfilt]
    simp [TransferRun.init, TransferState.init]

end S3X

namespace S3X

/-- C8: if fetching or locally writing a single entry fails during the
transfer pass, the pass aborts immediately at that entry — the failing
entry is attempted exactly once (no retry), no later entry is fetched or
written, the error propagates to the caller, and the final report is not
printed. -/
theorem C8_transfer_abort (ext : Option (List String)) (dest : String)
    (fetch : String → Option PyErr) (pre post : List Entry) (bad : Entry) (err : PyErr)
    (pages2 : List (List Entry))
    (hpre : ∀ e ∈ pre, counted ext e = true → fetch e.key = none)
    (hbadc : counted ext bad = true)
    (hbad : fetch bad.key = some err)
    (hflat : pages2.flatten = pre ++ bad :: post) :
    (transferRunPages ext dest fetch pages2).error = some err
      ∧ (transferRunPages ext dest fetch pages2).fetched
          = (pre.filter (counted ext)).map Entry.key ++ [bad.key]
      ∧ (transferRunPages ext dest fetch pages2).state.writes
          = (pre.filter (counted ext)).map (fun e => (pathJoin dest e.key, e.key))
      ∧ (transferRunPages ext dest fetch pages2).state.downloaded_files
          = (pre.filter (counted ext)).length
      ∧ (transferRunPages ext dest fetch pages2).state.downloaded_bytes
          = ((pre.filter (counted ext)).map Entry.size).sum
      ∧ ∀ (a : Args) (pages1 : List (List Entry)),
          a.download = true → destTruthy a = true →
          normalizeExtensions a.exts = ext → a.dest.getD "" = dest →
          runProgram a pages1 pages2 fetch = Except.error err := by
  have hrun : transferRunPages ext dest fetch pages2 =
      { error := some err
        fetched := (pre.filter (counted ext)).map Entry.key ++ [bad.key]
        state :=
          { downloaded_files := (pre.filter (counted ext)).length
            downloaded_bytes := ((pre.filter (counted ext)).map Entry.size).sum
            writes :=
              (pre.filter (counted ext)).map (fun e => (pathJoin dest e.key, e.key)) } } := by
    rw [transferRunPages_eq_flat, hflat, List.foldl_append,
      foldl_transferRunStep_ok ext dest fetch pre TransferRun.init rfl hpre,
      List.foldl_cons,
      transferRunStep_fail ext dest fetch _ bad err rfl hbadc hbad,
      foldl_transferRunStep_error ext dest fetch post _ err rfl]
    simp [TransferRun.init, TransferState.init]
  refine ⟨by rw [hrun], by rw [hrun], by rw [hrun], by rw [hrun], by rw [hrun], ?_⟩
  intro a pages1 hdl hdt hext hdest
  have hv : validateDest a = Except.ok a.dest := by
    simp [validateDest, hdl, hdt]
  simp only [runProgram, hv, hdl, if_true, hext, hdest, hrun]

theorem C8_witness :
    (transferRunPages (some [".nc"]) "out"
          (fun k => if k = "a/bad.nc" then some (PyErr.transferError "denied") else none)
          [[⟨"a/ok.nc", 5⟩, ⟨"a/bad.nc", 7⟩], [⟨"a/late.nc", 9⟩]]).error
        = some (PyErr.transferError "denied")
      ∧ (transferRunPages (some [".nc"]) "out"
            (fun k => if k = "a/bad.nc" then some (PyErr.transferError "denied") else none)
            [[⟨"a/ok.nc", 5⟩, ⟨"a/bad.nc", 7⟩], [⟨"a/late.nc", 9⟩]]).fetched
          = ["a/ok.nc", "a/bad.nc"]
      ∧ (transferRunPages (some [".nc"]) "out"
            (fun k => if k = "a/bad.nc" then some (PyErr.transferError "denied") else none)
            [[⟨"a/ok.nc", 5⟩, ⟨"a/bad.nc", 7⟩], [⟨"a/late.nc", 9⟩]]).state.writes
          = [("out/a/ok.nc", "a/ok.nc")]
      ∧ runProgram (Args.mk "a" (some [".nc"]) false false true (some "out")) []
            [[⟨"a/ok.nc", 5⟩, ⟨"a/bad.nc", 7⟩], [⟨"a/late.nc", 9⟩]]
            (fun k => if k = "a/bad.nc" then some (PyErr.transferError "denied") else none)
          = Except.error (PyErr.transferError "denied") := by
  have h := C8_transfer_abort (some [".nc"]) "out"
    (fun k => if k = "a/bad.nc" then some (PyErr.transferError "denied") else none)
    [⟨"a/ok.nc", 5⟩] [⟨"a/late.nc", 9⟩] ⟨"a/bad.nc", 7⟩ (PyErr.transferError "denied")
    [[⟨"a/ok.nc", 5⟩, ⟨"a/bad.nc", 7⟩], [⟨"a/late.nc", 9⟩]]
    (by decide) (by decide) (by decide) (by decide)
  refine ⟨h.1, h.2.1.trans (by decide), h.2.2.1.trans (by decide), ?_⟩
  exact h.2.2.2.2.2 (Args.mk "a" (some [".nc"]) false false true (some "out")) []
    (by decide) (by decide) (by decide) (by decide)

end S3X
